import Mathlib

/-!
Verification development for the terminal-session core of the repository.

The development shallowly embeds the two parallel implementations of the
subsystem:

* the `manifest-app` implementation (`manifest-app/terminal/src/lib.rs`,
  `mappings/keys.rs`, `terminal_hyperlinks.rs`), modelled in the
  `AppKeys` / `ManifestApp` namespaces;
* the `manifest-gpui` implementation
  (`manifest-gpui/legion_terminal/src/{terminal,bounds,event}.rs`,
  `mappings/keys.rs`), modelled in the `LegionKeys` / `LegionTerm`
  namespaces.

The external alacritty emulation engine is out of scope of the source tree;
where its behaviour decides a claim it is modelled from the spec (see the
`Engine` section below).  Pixels (gpui `Pixels`, an `f32` wrapper) are
embedded as exact rationals.
-/

/-- Modifier state of a keystroke: the four gpui modifier flags that the
terminal core reads (`control`, `alt`, `shift`, `platform`). -/
structure KeyModifiers where
  control : Bool
  alt : Bool
  shift : Bool
  platform : Bool
deriving DecidableEq

/-- A gpui keystroke: logical key name, modifiers, and the optional literal
text (`key_char`) carried by ordinary typing events. -/
structure Keystroke where
  key : String
  modifiers : KeyModifiers
  key_char : Option String
deriving DecidableEq

/-- The two alacritty `TermMode` flags consulted by the keystroke encoder:
`APP_CURSOR` (application cursor mode) and `ALT_SCREEN` (alternate screen).
The full bitflag set has more flags, but `to_esc_str` tests only these two
via `mode.contains`. -/
structure TermMode where
  app_cursor : Bool
  alt_screen : Bool
deriving DecidableEq

/-- The modifier classification used by both keystroke encoders
(`Modifiers` in manifest-app, `AlacModifiers` in legion_terminal; the two
enums are identical). -/
inductive AlacMods where
  | none
  | alt
  | ctrl
  | shift
  | ctrlShift
  | other
deriving DecidableEq

/-- `Modifiers::new` / `AlacModifiers::new`: classify a keystroke's
modifier flags. -/
def AlacMods.ofKeystroke (ks : Keystroke) : AlacMods :=
  match ks.modifiers.alt, ks.modifiers.control, ks.modifiers.shift, ks.modifiers.platform with
  | false, false, false, false => AlacMods.none
  | true, false, false, false => AlacMods.alt
  | false, true, false, false => AlacMods.ctrl
  | false, false, true, false => AlacMods.shift
  | false, true, true, false => AlacMods.ctrlShift
  | _, _, _, _ => AlacMods.other

/-- `Modifiers::any`: true unless no classified modifier is held. -/
def AlacMods.any (m : AlacMods) : Bool :=
  match m with
  | AlacMods.none => false
  | _ => true

/-- `modifier_code`: the xterm numeric modifier code,
`1 + (shift?1:0) + (alt?2:0) + (control?4:0)` (identical in both
implementations). -/
def modifier_code (ks : Keystroke) : Nat :=
  let mc : Nat := 0
  let mc := if ks.modifiers.shift = true then mc ||| 1 else mc
  let mc := if ks.modifiers.alt = true then mc ||| (1 <<< 1) else mc
  let mc := if ks.modifiers.control = true then mc ||| (1 <<< 2) else mc
  mc + 1

/-- Rust `str::is_ascii`: every character is ASCII. -/
def str_is_ascii (s : String) : Bool :=
  s.data.all (fun c => c.toNat ≤ 127)

/-- Rust `char::to_ascii_uppercase`, applied characterwise. -/
def ascii_upper_char (c : Char) : Char :=
  if 97 ≤ c.toNat ∧ c.toNat ≤ 122 then Char.ofNat (c.toNat - 32) else c

/-- Rust `str::to_ascii_uppercase`. -/
def ascii_uppercase (s : String) : String :=
  String.mk (s.data.map ascii_upper_char)

/-- The `(letter, Ctrl)` caret-notation rows of the manual binding table
(identical in both implementations). -/
def ctrl_caret_table : List (String × String) :=
  [("a", "\x01"), ("b", "\x02"), ("c", "\x03"), ("d", "\x04"), ("e", "\x05"),
   ("f", "\x06"), ("g", "\x07"), ("h", "\x08"), ("i", "\x09"), ("j", "\x0a"),
   ("k", "\x0b"), ("l", "\x0c"), ("m", "\x0d"), ("n", "\x0e"), ("o", "\x0f"),
   ("p", "\x10"), ("q", "\x11"), ("r", "\x12"), ("s", "\x13"), ("t", "\x14"),
   ("u", "\x15"), ("v", "\x16"), ("w", "\x17"), ("x", "\x18"), ("y", "\x19"),
   ("z", "\x1a"), ("@", "\x00"), ("[", "\x1b"), ("\\", "\x1c"), ("]", "\x1d"),
   ("^", "\x1e"), ("_", "\x1f"), ("?", "\x7f")]

/-- The `(LETTER, CtrlShift)` caret-notation rows of the manual binding
table (identical in both implementations). -/
def ctrl_shift_caret_table : List (String × String) :=
  [("A", "\x01"), ("B", "\x02"), ("C", "\x03"), ("D", "\x04"), ("E", "\x05"),
   ("F", "\x06"), ("G", "\x07"), ("H", "\x08"), ("I", "\x09"), ("J", "\x0a"),
   ("K", "\x0b"), ("L", "\x0c"), ("M", "\x0d"), ("N", "\x0e"), ("O", "\x0f"),
   ("P", "\x10"), ("Q", "\x11"), ("R", "\x12"), ("S", "\x13"), ("T", "\x14"),
   ("U", "\x15"), ("V", "\x16"), ("W", "\x17"), ("X", "\x18"), ("Y", "\x19"),
   ("Z", "\x1a")]

/-- Unmodified function-key rows of the manifest-app manual table
(f1 through f12). -/
def fkeys_none_app : List (String × String) :=
  [("f1", "\x1bOP"), ("f2", "\x1bOQ"), ("f3", "\x1bOR"), ("f4", "\x1bOS"),
   ("f5", "\x1b[15~"), ("f6", "\x1b[17~"), ("f7", "\x1b[18~"),
   ("f8", "\x1b[19~"), ("f9", "\x1b[20~"), ("f10", "\x1b[21~"),
   ("f11", "\x1b[23~"), ("f12", "\x1b[24~")]

/-- Unmodified function-key rows of the legion_terminal manual table
(f1 through f20). -/
def fkeys_none_legion : List (String × String) :=
  [("f1", "\x1bOP"), ("f2", "\x1bOQ"), ("f3", "\x1bOR"), ("f4", "\x1bOS"),
   ("f5", "\x1b[15~"), ("f6", "\x1b[17~"), ("f7", "\x1b[18~"),
   ("f8", "\x1b[19~"), ("f9", "\x1b[20~"), ("f10", "\x1b[21~"),
   ("f11", "\x1b[23~"), ("f12", "\x1b[24~"), ("f13", "\x1b[25~"),
   ("f14", "\x1b[26~"), ("f15", "\x1b[28~"), ("f16", "\x1b[29~"),
   ("f17", "\x1b[31~"), ("f18", "\x1b[32~"), ("f19", "\x1b[33~"),
   ("f20", "\x1b[34~")]

/-- Rows of the modifier-template stage that come before the
`modifier_code == 2` wildcard suppression, manifest-app version
(arrows and f1 through f12).  Each value is the pair of the text before and
after the interpolated modifier code. -/
def template_a_app : List (String × (String × String)) :=
  [("up", ("\x1b[1;", "A")), ("down", ("\x1b[1;", "B")),
   ("right", ("\x1b[1;", "C")), ("left", ("\x1b[1;", "D")),
   ("f1", ("\x1b[1;", "P")), ("f2", ("\x1b[1;", "Q")),
   ("f3", ("\x1b[1;", "R")), ("f4", ("\x1b[1;", "S")),
   ("f5", ("\x1b[15;", "~")), ("f6", ("\x1b[17;", "~")),
   ("f7", ("\x1b[18;", "~")), ("f8", ("\x1b[19;", "~")),
   ("f9", ("\x1b[20;", "~")), ("f10", ("\x1b[21;", "~")),
   ("f11", ("\x1b[23;", "~")), ("f12", ("\x1b[24;", "~"))]

/-- Rows of the modifier-template stage before the `modifier_code == 2`
wildcard, legion_terminal version (arrows and f1 through f20). -/
def template_a_legion : List (String × (String × String)) :=
  [("up", ("\x1b[1;", "A")), ("down", ("\x1b[1;", "B")),
   ("right", ("\x1b[1;", "C")), ("left", ("\x1b[1;", "D")),
   ("f1", ("\x1b[1;", "P")), ("f2", ("\x1b[1;", "Q")),
   ("f3", ("\x1b[1;", "R")), ("f4", ("\x1b[1;", "S")),
   ("f5", ("\x1b[15;", "~")), ("f6", ("\x1b[17;", "~")),
   ("f7", ("\x1b[18;", "~")), ("f8", ("\x1b[19;", "~")),
   ("f9", ("\x1b[20;", "~")), ("f10", ("\x1b[21;", "~")),
   ("f11", ("\x1b[23;", "~")), ("f12", ("\x1b[24;", "~")),
   ("f13", ("\x1b[25;", "~")), ("f14", ("\x1b[26;", "~")),
   ("f15", ("\x1b[28;", "~")), ("f16", ("\x1b[29;", "~")),
   ("f17", ("\x1b[31;", "~")), ("f18", ("\x1b[32;", "~")),
   ("f19", ("\x1b[33;", "~")), ("f20", ("\x1b[34;", "~"))]

/-- Rows of the modifier-template stage after the `modifier_code == 2`
wildcard (identical in both implementations): these keys are suppressed
for a bare shift modifier. -/
def template_b : List (String × (String × String)) :=
  [("insert", ("\x1b[2;", "~")), ("pageup", ("\x1b[5;", "~")),
   ("pagedown", ("\x1b[6;", "~")), ("end", ("\x1b[1;", "F")),
   ("home", ("\x1b[1;", "H"))]

/-- The modifier-template stage shared shape: first the rows before the
`modifier_code == 2` wildcard (`table_a`, which differs between the two
implementations), then the wildcard that suppresses a bare shift code of 2,
then the remaining rows (`template_b`). -/
def template_esc_str (table_a : List (String × (String × String)))
    (k : String) (code : Nat) : Option String :=
  match List.lookup k table_a with
  | some ps => some (ps.1 ++ toString code ++ ps.2)
  | Option.none =>
    if code = 2 then Option.none
    else
      match List.lookup k template_b with
      | some ps => some (ps.1 ++ toString code ++ ps.2)
      | Option.none => Option.none

namespace AppKeys

/-- `to_esc_str` of `manifest-app/terminal/src/mappings/keys.rs`: the
keystroke encoder.  `macos` embeds the compile-time
`cfg!(target_os = "macos")` constant as a parameter. -/
def to_esc_str (ks : Keystroke) (mode : TermMode) (option_as_meta : Bool)
    (macos : Bool) : Option String :=
  let m := AlacMods.ofKeystroke ks
  let k := ks.key
  let manual_esc_str : Option String :=
    if k = "tab" ∧ m = AlacMods.none then some "\x09"
    else if k = "escape" ∧ m = AlacMods.none then some "\x1b"
    else if k = "enter" ∧ m = AlacMods.none then some "\x0d"
    else if k = "enter" ∧ m = AlacMods.shift then some "\x0a"
    else if k = "enter" ∧ m = AlacMods.alt then some "\x1b\x0d"
    else if k = "backspace" ∧ m = AlacMods.none then some "\x7f"
    else if k = "tab" ∧ m = AlacMods.shift then some "\x1b[Z"
    else if k = "backspace" ∧ m = AlacMods.ctrl then some "\x08"
    else if k = "backspace" ∧ m = AlacMods.alt then some "\x1b\x7f"
    else if k = "backspace" ∧ m = AlacMods.shift then some "\x7f"
    else if k = "space" ∧ m = AlacMods.ctrl then some "\x00"
    else if k = "home" ∧ m = AlacMods.shift ∧ mode.alt_screen = true then some "\x1b[1;2H"
    else if k = "end" ∧ m = AlacMods.shift ∧ mode.alt_screen = true then some "\x1b[1;2F"
    else if k = "pageup" ∧ m = AlacMods.shift ∧ mode.alt_screen = true then some "\x1b[5;2~"
    else if k = "pagedown" ∧ m = AlacMods.shift ∧ mode.alt_screen = true then some "\x1b[6;2~"
    else if k = "home" ∧ m = AlacMods.none ∧ mode.app_cursor = true then some "\x1bOH"
    else if k = "home" ∧ m = AlacMods.none ∧ mode.app_cursor = false then some "\x1b[H"
    else if k = "end" ∧ m = AlacMods.none ∧ mode.app_cursor = true then some "\x1bOF"
    else if k = "end" ∧ m = AlacMods.none ∧ mode.app_cursor = false then some "\x1b[F"
    else if k = "up" ∧ m = AlacMods.none ∧ mode.app_cursor = true then some "\x1bOA"
    else if k = "up" ∧ m = AlacMods.none ∧ mode.app_cursor = false then some "\x1b[A"
    else if k = "down" ∧ m = AlacMods.none ∧ mode.app_cursor = true then some "\x1bOB"
    else if k = "down" ∧ m = AlacMods.none ∧ mode.app_cursor = false then some "\x1b[B"
    else if k = "right" ∧ m = AlacMods.none ∧ mode.app_cursor = true then some "\x1bOC"
    else if k = "right" ∧ m = AlacMods.none ∧ mode.app_cursor = false then some "\x1b[C"
    else if k = "left" ∧ m = AlacMods.none ∧ mode.app_cursor = true then some "\x1bOD"
    else if k = "left" ∧ m = AlacMods.none ∧ mode.app_cursor = false then some "\x1b[D"
    else if k = "back" ∧ m = AlacMods.none then some "\x7f"
    else if k = "insert" ∧ m = AlacMods.none then some "\x1b[2~"
    else if k = "delete" ∧ m = AlacMods.none then some "\x1b[3~"
    else if k = "pageup" ∧ m = AlacMods.none then some "\x1b[5~"
    else if k = "pagedown" ∧ m = AlacMods.none then some "\x1b[6~"
    else if m = AlacMods.none then List.lookup k fkeys_none_app
    else if m = AlacMods.ctrl then List.lookup k ctrl_caret_table
    else if m = AlacMods.ctrlShift then List.lookup k ctrl_shift_caret_table
    else Option.none
  match manual_esc_str with
  | some s => some s
  | Option.none =>
    let modified_esc_str : Option String :=
      if m.any = true then template_esc_str template_a_app k (modifier_code ks)
      else Option.none
    match modified_esc_str with
    | some s => some s
    | Option.none =>
      if macos = false ∨ option_as_meta = true then
        if (m = AlacMods.alt ∧ str_is_ascii k = true)
            ∨ (ks.modifiers.alt = true ∧ ks.modifiers.shift = true ∧ str_is_ascii k = true) then
          some ("\x1b" ++ (if ks.modifiers.alt = true ∧ ks.modifiers.shift = true ∧ str_is_ascii k = true
                            then ascii_uppercase k else k))
        else Option.none
      else Option.none

end AppKeys

namespace LegionKeys

/-- `to_esc_str` of `manifest-gpui/legion_terminal/src/mappings/keys.rs`.
It differs from the manifest-app encoder in covering f13 through f20 and in
a final stage that passes non-empty `key_char` text through for plain or
shift-only keystrokes.  `macos` embeds `cfg!(target_os = "macos")`. -/
def to_esc_str (ks : Keystroke) (mode : TermMode) (option_as_meta : Bool)
    (macos : Bool) : Option String :=
  let m := AlacMods.ofKeystroke ks
  let k := ks.key
  let manual_esc_str : Option String :=
    if k = "tab" ∧ m = AlacMods.none then some "\x09"
    else if k = "escape" ∧ m = AlacMods.none then some "\x1b"
    else if k = "enter" ∧ m = AlacMods.none then some "\x0d"
    else if k = "enter" ∧ m = AlacMods.shift then some "\x0a"
    else if k = "enter" ∧ m = AlacMods.alt then some "\x1b\x0d"
    else if k = "backspace" ∧ m = AlacMods.none then some "\x7f"
    else if k = "tab" ∧ m = AlacMods.shift then some "\x1b[Z"
    else if k = "backspace" ∧ m = AlacMods.ctrl then some "\x08"
    else if k = "backspace" ∧ m = AlacMods.alt then some "\x1b\x7f"
    else if k = "backspace" ∧ m = AlacMods.shift then some "\x7f"
    else if k = "space" ∧ m = AlacMods.ctrl then some "\x00"
    else if k = "home" ∧ m = AlacMods.shift ∧ mode.alt_screen = true then some "\x1b[1;2H"
    else if k = "end" ∧ m = AlacMods.shift ∧ mode.alt_screen = true then some "\x1b[1;2F"
    else if k = "pageup" ∧ m = AlacMods.shift ∧ mode.alt_screen = true then some "\x1b[5;2~"
    else if k = "pagedown" ∧ m = AlacMods.shift ∧ mode.alt_screen = true then some "\x1b[6;2~"
    else if k = "home" ∧ m = AlacMods.none ∧ mode.app_cursor = true then some "\x1bOH"
    else if k = "home" ∧ m = AlacMods.none ∧ mode.app_cursor = false then some "\x1b[H"
    else if k = "end" ∧ m = AlacMods.none ∧ mode.app_cursor = true then some "\x1bOF"
    else if k = "end" ∧ m = AlacMods.none ∧ mode.app_cursor = false then some "\x1b[F"
    else if k = "up" ∧ m = AlacMods.none ∧ mode.app_cursor = true then some "\x1bOA"
    else if k = "up" ∧ m = AlacMods.none ∧ mode.app_cursor = false then some "\x1b[A"
    else if k = "down" ∧ m = AlacMods.none ∧ mode.app_cursor = true then some "\x1bOB"
    else if k = "down" ∧ m = AlacMods.none ∧ mode.app_cursor = false then some "\x1b[B"
    else if k = "right" ∧ m = AlacMods.none ∧ mode.app_cursor = true then some "\x1bOC"
    else if k = "right" ∧ m = AlacMods.none ∧ mode.app_cursor = false then some "\x1b[C"
    else if k = "left" ∧ m = AlacMods.none ∧ mode.app_cursor = true then some "\x1bOD"
    else if k = "left" ∧ m = AlacMods.none ∧ mode.app_cursor = false then some "\x1b[D"
    else if k = "back" ∧ m = AlacMods.none then some "\x7f"
    else if k = "insert" ∧ m = AlacMods.none then some "\x1b[2~"
    else if k = "delete" ∧ m = AlacMods.none then some "\x1b[3~"
    else if k = "pageup" ∧ m = AlacMods.none then some "\x1b[5~"
    else if k = "pagedown" ∧ m = AlacMods.none then some "\x1b[6~"
    else if m = AlacMods.none then List.lookup k fkeys_none_legion
    else if m = AlacMods.ctrl then List.lookup k ctrl_caret_table
    else if m = AlacMods.ctrlShift then List.lookup k ctrl_shift_caret_table
    else Option.none
  match manual_esc_str with
  | some s => some s
  | Option.none =>
    let modified_esc_str : Option String :=
      if m.any = true then template_esc_str template_a_legion k (modifier_code ks)
      else Option.none
    match modified_esc_str with
    | some s => some s
    | Option.none =>
      let alt_meta : Option String :=
        if macos = false ∨ option_as_meta = true then
          if (m = AlacMods.alt ∧ str_is_ascii k = true)
              ∨ (ks.modifiers.alt = true ∧ ks.modifiers.shift = true ∧ str_is_ascii k = true) then
            some ("\x1b" ++ (if ks.modifiers.alt = true ∧ ks.modifiers.shift = true ∧ str_is_ascii k = true
                              then ascii_uppercase k else k))
          else Option.none
        else Option.none
      match alt_meta with
      | some s => some s
      | Option.none =>
        if m = AlacMods.none ∨ m = AlacMods.shift then
          match ks.key_char with
          | some kc => if kc = "" then Option.none else some kc
          | Option.none => Option.none
        else Option.none

end LegionKeys

/-- No modifier held. -/
def noMods : KeyModifiers := ⟨false, false, false, false⟩

/-- Only the shift modifier held. -/
def shiftOnly : KeyModifiers := ⟨false, false, true, false⟩

/-- Only the control modifier held. -/
def ctrlOnly : KeyModifiers := ⟨true, false, false, false⟩

/-- Only the platform (command) modifier held. -/
def platformOnly : KeyModifiers := ⟨false, false, false, true⟩

/-- The escape sequence that the manual table assigns to each of the four
shift-navigation keys in alternate-screen mode. -/
def shift_nav_seq (k : String) : String :=
  if k = "home" then "\x1b[1;2H"
  else if k = "end" then "\x1b[1;2F"
  else if k = "pageup" then "\x1b[5;2~"
  else "\x1b[6;2~"

/-- C7: encoding the Up arrow with no modifiers yields `ESC O A` when
application cursor mode is set and `ESC [ A` when it is not, in both
implementations, for the same key event, and the two outputs differ. -/
theorem up_arrow_app_cursor_mode_sensitivity :
    ∀ (ac as meta mac : Bool) (kc : Option String),
      AppKeys.to_esc_str ⟨"up", noMods, kc⟩ ⟨ac, as⟩ meta mac
          = some (if ac = true then "\x1bOA" else "\x1b[A")
      ∧ LegionKeys.to_esc_str ⟨"up", noMods, kc⟩ ⟨ac, as⟩ meta mac
          = some (if ac = true then "\x1bOA" else "\x1b[A")
      ∧ ("\x1bOA" : String) ≠ "\x1b[A" := by
  intro ac as meta mac kc
  refine ⟨?_, ?_, by decide⟩ <;> cases ac <;> rfl

/-- C2 counterexample: in the legion_terminal implementation, a Shift+Home
key event that carries literal `key_char` text is not suppressed outside
alternate-screen mode — the final stage passes the text through, so the
encoder returns `some "x"`, not `none` as the claim requires. -/
theorem shift_home_keychar_passthrough_cex :
    LegionKeys.to_esc_str ⟨"home", shiftOnly, some "x"⟩ ⟨false, false⟩ false false
        = some "x"
    ∧ some "x" ≠ (Option.none : Option String) := by
  exact ⟨rfl, by decide⟩

/-- C2 amended: for each of Home/End/PageUp/PageDown with only shift held,
the manifest-app encoder returns the fixed escape sequence exactly when
`ALT_SCREEN` is set and `none` otherwise (for any `key_char`); the
legion_terminal encoder does the same provided the event carries no
`key_char` text (otherwise its final literal-text stage passes the text
through). -/
theorem shift_nav_requires_alt_screen :
    ∀ (k : String), (k = "home" ∨ k = "end" ∨ k = "pageup" ∨ k = "pagedown") →
    ∀ (ac as meta mac : Bool) (kc : Option String),
      AppKeys.to_esc_str ⟨k, shiftOnly, kc⟩ ⟨ac, as⟩ meta mac
          = (if as = true then some (shift_nav_seq k) else Option.none)
      ∧ LegionKeys.to_esc_str ⟨k, shiftOnly, Option.none⟩ ⟨ac, as⟩ meta mac
          = (if as = true then some (shift_nav_seq k) else Option.none) := by
  intro k hk ac as meta mac kc
  rcases hk with h | h | h | h <;> subst h <;>
    cases as <;> cases ac <;> cases meta <;> cases mac <;> exact ⟨rfl, rfl⟩

/-- C2 witness: the amended theorem applied at Shift+Home with
alternate-screen mode set. -/
theorem shift_nav_requires_alt_screen_witness :
    (("home" : String) = "home" ∨ ("home" : String) = "end"
      ∨ ("home" : String) = "pageup" ∨ ("home" : String) = "pagedown")
    ∧ (AppKeys.to_esc_str ⟨"home", shiftOnly, Option.none⟩ ⟨false, true⟩ false false
          = (if true = true then some (shift_nav_seq "home") else Option.none)
      ∧ LegionKeys.to_esc_str ⟨"home", shiftOnly, Option.none⟩ ⟨false, true⟩ false false
          = (if true = true then some (shift_nav_seq "home") else Option.none)) :=
  ⟨Or.inl rfl,
   shift_nav_requires_alt_screen "home" (Or.inl rfl) false true false false Option.none⟩

/-- C9: both keystroke encoders are total functions — they return a result
(`some` sequence or `none`) on every input — and they are deterministic:
equal key events, mode flags, meta-convention flags (and target-platform
constants) yield equal results.  Side-effect freedom is witnessed by the
embedding itself: the encoder is a pure function of its arguments. -/
theorem to_esc_str_total_and_deterministic :
    ∀ (ks1 ks2 : Keystroke) (m1 m2 : TermMode) (o1 o2 mac1 mac2 : Bool),
      ks1 = ks2 → m1 = m2 → o1 = o2 → mac1 = mac2 →
      (∃ r, AppKeys.to_esc_str ks1 m1 o1 mac1 = r)
      ∧ AppKeys.to_esc_str ks1 m1 o1 mac1 = AppKeys.to_esc_str ks2 m2 o2 mac2
      ∧ (∃ r, LegionKeys.to_esc_str ks1 m1 o1 mac1 = r)
      ∧ LegionKeys.to_esc_str ks1 m1 o1 mac1 = LegionKeys.to_esc_str ks2 m2 o2 mac2 := by
  intro ks1 ks2 m1 m2 o1 o2 mac1 mac2 h1 h2 h3 h4
  subst h1; subst h2; subst h3; subst h4
  exact ⟨⟨_, rfl⟩, rfl, ⟨_, rfl⟩, rfl⟩

/-- C9 witness: the determinism theorem applied at Ctrl+A (whose encoding
both implementations evaluate to the byte `0x01`). -/
theorem to_esc_str_total_and_deterministic_witness :
    ((⟨"a", ctrlOnly, Option.none⟩ : Keystroke) = ⟨"a", ctrlOnly, Option.none⟩)
    ∧ ((∃ r, AppKeys.to_esc_str ⟨"a", ctrlOnly, Option.none⟩ ⟨false, false⟩ false false = r)
      ∧ AppKeys.to_esc_str ⟨"a", ctrlOnly, Option.none⟩ ⟨false, false⟩ false false
          = AppKeys.to_esc_str ⟨"a", ctrlOnly, Option.none⟩ ⟨false, false⟩ false false
      ∧ (∃ r, LegionKeys.to_esc_str ⟨"a", ctrlOnly, Option.none⟩ ⟨false, false⟩ false false = r)
      ∧ LegionKeys.to_esc_str ⟨"a", ctrlOnly, Option.none⟩ ⟨false, false⟩ false false
          = LegionKeys.to_esc_str ⟨"a", ctrlOnly, Option.none⟩ ⟨false, false⟩ false false) :=
  ⟨rfl, to_esc_str_total_and_deterministic _ _ _ _ _ _ _ _ rfl rfl rfl rfl⟩

/-- Sanity check kept as a theorem: Ctrl+A encodes to the byte `0x01` in
both implementations (spec section 8, round-trip property). -/
theorem ctrl_a_encodes_to_soh :
    AppKeys.to_esc_str ⟨"a", ctrlOnly, Option.none⟩ ⟨false, false⟩ false false = some "\x01"
    ∧ LegionKeys.to_esc_str ⟨"a", ctrlOnly, Option.none⟩ ⟨false, false⟩ false false = some "\x01" :=
  ⟨rfl, rfl⟩

/-- Pixel size of a region (gpui `Size<Pixels>`; `Pixels` is an `f32`
wrapper, embedded here as exact rationals). -/
structure PixelSize where
  width : ℚ
  height : ℚ
deriving DecidableEq

/-- Pixel bounds of a region (gpui `Bounds<Pixels>`). -/
structure PixelBounds where
  origin : ℚ × ℚ
  size : PixelSize
deriving DecidableEq

/-- `TerminalBounds`: pixel bounds plus cell metrics.  The definition is
character-identical in `manifest-app/terminal/src/lib.rs` and
`manifest-gpui/legion_terminal/src/bounds.rs` (only the `Default` values
differ), so a single embedding serves both. -/
structure TerminalBounds where
  cell_width : ℚ
  line_height : ℚ
  bounds : PixelBounds
deriving DecidableEq

/-- Largest `usize` value on the 64-bit targets this code builds for. -/
def USIZE_MAX : ℕ := 2 ^ 64 - 1

/-- `TerminalBounds::num_lines`:
`(self.bounds.size.height / self.line_height).floor() as usize`.  The
`as usize` cast saturates at both ends: negative values go to zero
(modelled by `Int.toNat`) and values above `usize::MAX` go to
`usize::MAX` (modelled by the `min`).  The one f32 behaviour the
exact-rational embedding cannot represent is an infinite quotient from a
zero divisor (in the rationals a division by zero yields zero); the
floor-equality theorems therefore assume a nonzero divisor. -/
def TerminalBounds.num_lines (b : TerminalBounds) : ℕ :=
  min (⌊b.bounds.size.height / b.line_height⌋).toNat USIZE_MAX

/-- `TerminalBounds::num_columns`:
`(self.bounds.size.width / self.cell_width).floor() as usize`, with the
same two-sided saturation of the cast as `num_lines`. -/
def TerminalBounds.num_columns (b : TerminalBounds) : ℕ :=
  min (⌊b.bounds.size.width / b.cell_width⌋).toNat USIZE_MAX

/-- A `TerminalBounds` with negative pixel height (the type puts no sign
restriction on pixel values). -/
def bounds_neg : TerminalBounds :=
  { cell_width := 5, line_height := 5
    bounds := { origin := (0, 0), size := { width := 20, height := -10 } } }

/-- C6 counterexample: for bounds with height `-10` and line height `5`,
`num_lines()` returns `0` (the `as usize` cast saturates at zero) while
`floor(height / line_height) = -2`, so `num_lines()` does not equal the
floor for every `TerminalBounds` value. -/
theorem num_lines_negative_height_cex :
    ((bounds_neg.num_lines : ℤ) = 0)
    ∧ (⌊bounds_neg.bounds.size.height / bounds_neg.line_height⌋ = (-2 : ℤ))
    ∧ ((bounds_neg.num_lines : ℤ)
        ≠ ⌊bounds_neg.bounds.size.height / bounds_neg.line_height⌋) := by
  have hfloor : ⌊bounds_neg.bounds.size.height / bounds_neg.line_height⌋ = (-2 : ℤ) := by
    norm_num [bounds_neg]
  refine ⟨?_, hfloor, ?_⟩
  · simp [TerminalBounds.num_lines, hfloor]
  · simp [TerminalBounds.num_lines, hfloor]

/-- C6 amended: for every `TerminalBounds` value with a nonzero line
height, `num_lines()` equals `floor(height / line_height)` clamped into
`[0, usize::MAX]` (so it equals the plain floor whenever that floor lies
in the range), and likewise `num_columns()` for
`floor(width / cell_width)` with nonzero cell width; unconditionally,
both results are never negative and never exceed `usize::MAX`.  The
nonzero-divisor hypotheses exclude the one input the exact-rational
embedding cannot represent (an infinite f32 quotient). -/
theorem num_lines_num_columns_floor_clamped :
    ∀ b : TerminalBounds,
      (b.line_height ≠ 0 →
        (b.num_lines : ℤ)
          = max (min ⌊b.bounds.size.height / b.line_height⌋ (USIZE_MAX : ℤ)) 0)
      ∧ (b.cell_width ≠ 0 →
        (b.num_columns : ℤ)
          = max (min ⌊b.bounds.size.width / b.cell_width⌋ (USIZE_MAX : ℤ)) 0)
      ∧ (0 : ℤ) ≤ (b.num_lines : ℤ) ∧ b.num_lines ≤ USIZE_MAX
      ∧ (0 : ℤ) ≤ (b.num_columns : ℤ) ∧ b.num_columns ≤ USIZE_MAX := by
  intro b
  refine ⟨fun _ => ?_, fun _ => ?_, Int.natCast_nonneg _, ?_, Int.natCast_nonneg _, ?_⟩
  · simp only [TerminalBounds.num_lines]
    push_cast [Int.toNat_eq_max]
    omega
  · simp only [TerminalBounds.num_columns]
    push_cast [Int.toNat_eq_max]
    omega
  · simp only [TerminalBounds.num_lines]
    exact min_le_right _ _
  · simp only [TerminalBounds.num_columns]
    exact min_le_right _ _

/-- A regex match range over the grid, linearised to cell indices
(alacritty `Match = RangeInclusive<Point>`; `Point::sub(term,
Boundary::Grid, n)`, which walks `n` cells backwards clamping at the grid
origin, is external to the source tree and is modelled as truncated index
subtraction). -/
structure CellMatch where
  start : Nat
  stop : Nat
deriving DecidableEq

/-- The trailing-trim loop of `sanitize_url_punctuation`, expressed on the
reversed character list (the Rust loop repeatedly inspects and pops the
last character): `op`/`cp` are the running open/close parenthesis counts;
a period, comma, colon, semicolon, or opening parenthesis is always
removed; a closing parenthesis is removed (decrementing `cp`) only while
`cp > op`; the loop stops at the first character outside that set.
Returns the surviving reversed characters and the number removed. -/
def trimRev (op : Nat) : Nat → List Char → List Char × Nat
  | _, [] => ([], 0)
  | cp, c :: rest =>
    if c = '.' ∨ c = ',' ∨ c = ':' ∨ c = ';' ∨ c = '(' then
      let p := trimRev op cp rest
      (p.1, p.2 + 1)
    else if c = ')' ∧ op < cp then
      let p := trimRev op (cp - 1) rest
      (p.1, p.2 + 1)
    else (c :: rest, 0)

/-- `sanitize_url_punctuation` of
`manifest-app/terminal/src/terminal_hyperlinks.rs`: count the
parentheses of the matched text, trim trailing punctuation, and when
anything was trimmed move the match's end coordinate back by the number
of trimmed characters, keeping the start coordinate. -/
def sanitize_url_punctuation (url : List Char) (url_match : CellMatch) :
    List Char × CellMatch :=
  let counts :=
    url.foldl
      (fun pr c =>
        if c = '(' then (pr.1 + 1, pr.2)
        else if c = ')' then (pr.1, pr.2 + 1)
        else pr)
      ((0 : Nat), (0 : Nat))
  let r := trimRev counts.1 counts.2 url.reverse
  let sanitized_url := r.1.reverse
  if 0 < r.2 then
    (sanitized_url, ⟨url_match.start, url_match.stop - r.2⟩)
  else
    (sanitized_url, url_match)

/-- The surviving part of `trimRev` is a suffix of the input. -/
theorem trimRev_fst_suffix (op : Nat) :
    ∀ (l : List Char) (cp : Nat), ∃ p, p ++ (trimRev op cp l).1 = l := by
  intro l
  induction l with
  | nil => intro cp; exact ⟨[], rfl⟩
  | cons c rest ih =>
    intro cp
    by_cases h1 : c = '.' ∨ c = ',' ∨ c = ':' ∨ c = ';' ∨ c = '('
    · obtain ⟨p, hp⟩ := ih cp
      exact ⟨c :: p, by simp [trimRev, h1, hp]⟩
    · by_cases h2 : c = ')' ∧ op < cp
      · obtain ⟨p, hp⟩ := ih (cp - 1)
        exact ⟨c :: p, by simp [trimRev, h1, h2, hp]⟩
      · exact ⟨[], by simp [trimRev, h1, h2]⟩

/-- `trimRev` removes exactly the difference of the lengths. -/
theorem trimRev_length (op : Nat) :
    ∀ (l : List Char) (cp : Nat),
      (trimRev op cp l).1.length + (trimRev op cp l).2 = l.length := by
  intro l
  induction l with
  | nil => intro cp; rfl
  | cons c rest ih =>
    intro cp
    by_cases h1 : c = '.' ∨ c = ',' ∨ c = ':' ∨ c = ';' ∨ c = '('
    · have := ih cp
      simp [trimRev, h1]
      omega
    · by_cases h2 : c = ')' ∧ op < cp
      · obtain ⟨hc, hop⟩ := h2
        subst hc
        have := ih (cp - 1)
        simp [trimRev, h1, hop]
        omega
      · simp [trimRev, h1, h2]

/-- The first surviving character of `trimRev` is not one of the five
unconditionally-removed punctuation characters. -/
theorem trimRev_fst_head (op : Nat) :
    ∀ (l : List Char) (cp : Nat) (c : Char),
      (trimRev op cp l).1.head? = some c →
      ¬(c = '.' ∨ c = ',' ∨ c = ':' ∨ c = ';' ∨ c = '(') := by
  intro l
  induction l with
  | nil => intro cp c h; simp [trimRev] at h
  | cons a rest ih =>
    intro cp c h
    by_cases h1 : a = '.' ∨ a = ',' ∨ a = ':' ∨ a = ';' ∨ a = '('
    · exact ih cp c (by simpa [trimRev, h1] using h)
    · by_cases h2 : a = ')' ∧ op < cp
      · exact ih (cp - 1) c (by simpa [trimRev, h1, h2] using h)
      · have : a = c := by simpa [trimRev, h1, h2] using h
        subst this
        exact h1

/-- Reversing a list turns its head into its last element. -/
theorem reverse_getLast_eq_head (l : List Char) : l.reverse.getLast? = l.head? := by
  cases l with
  | nil => rfl
  | cons a t => simp

/-- C5: trimming trailing URL punctuation.  The concrete instance: on the
matched text `"http://example.com)."` the sanitizer returns
`"http://example.com"` with the match's end coordinate moved back by
exactly the 2 trimmed characters and the start coordinate unchanged.  In
general the result is a prefix of the input, the start coordinate is
unchanged, the end coordinate moves back by exactly the number of trimmed
characters, and the result never ends in one of the unconditionally
trimmed characters (period, comma, colon, semicolon, opening
parenthesis) — the loop stops at the first character outside the removal
set; a closing parenthesis matched by an opening one in the text is
kept (second concrete instance). -/
theorem sanitize_url_punctuation_spec :
    (∀ s e : Nat,
      sanitize_url_punctuation (("http://example.com)." : String).data) ⟨s, e⟩
        = ((("http://example.com" : String).data), ⟨s, e - 2⟩))
    ∧ (∀ s e : Nat,
      sanitize_url_punctuation (("http://e.com/a(b)" : String).data) ⟨s, e⟩
        = ((("http://e.com/a(b)" : String).data), ⟨s, e⟩))
    ∧ (∀ (url : List Char) (m : CellMatch),
        (∃ t, (sanitize_url_punctuation url m).1 ++ t = url)
        ∧ (sanitize_url_punctuation url m).2.start = m.start
        ∧ (sanitize_url_punctuation url m).2.stop
            = m.stop - (url.length - (sanitize_url_punctuation url m).1.length)
        ∧ (∀ c, (sanitize_url_punctuation url m).1.getLast? = some c →
            c ≠ '.' ∧ c ≠ ',' ∧ c ≠ ':' ∧ c ≠ ';' ∧ c ≠ '(')) := by
  refine ⟨?_, ?_, ?_⟩
  · intro s e
    rfl
  · intro s e
    rfl
  · intro url m
    simp only [sanitize_url_punctuation]
    rcases hC : url.foldl
        (fun pr c =>
          if c = '(' then (pr.1 + 1, pr.2)
          else if c = ')' then (pr.1, pr.2 + 1) else pr)
        ((0 : Nat), (0 : Nat)) with ⟨op, cp⟩
    dsimp only
    obtain ⟨p, hp⟩ := trimRev_fst_suffix op url.reverse cp
    have hlen := trimRev_length op url.reverse cp
    have hpre : (trimRev op cp url.reverse).1.reverse ++ p.reverse = url := by
      have h2 : (p ++ (trimRev op cp url.reverse).1).reverse = url.reverse.reverse := by
        rw [hp]
      simpa [List.reverse_append] using h2
    by_cases hpos : 0 < (trimRev op cp url.reverse).2
    · refine ⟨⟨p.reverse, by simpa [hpos] using hpre⟩, by simp [hpos], ?_, ?_⟩
      · simp only [hpos, if_pos]
        have hl : (trimRev op cp url.reverse).1.reverse.length
            = (trimRev op cp url.reverse).1.length := by simp
        simp only [hl]
        have hlu : url.reverse.length = url.length := by simp
        omega
      · intro c hc
        simp only [hpos, if_pos] at hc
        have := trimRev_fst_head op url.reverse cp c
          (by rwa [← reverse_getLast_eq_head])
        push_neg at this
        exact this
    · refine ⟨⟨p.reverse, by simpa [hpos] using hpre⟩, by simp [hpos], ?_, ?_⟩
      · simp only [hpos, if_neg, not_false_iff]
        have hl : (trimRev op cp url.reverse).1.reverse.length
            = (trimRev op cp url.reverse).1.length := by simp
        have hlu : url.reverse.length = url.length := by simp
        simp only [hl]
        omega
      · intro c hc
        simp only [hpos, if_neg, not_false_iff] at hc
        have := trimRev_fst_head op url.reverse cp c
          (by rwa [← reverse_getLast_eq_head])
        push_neg at this
        exact this

/-- C5 witness: the concrete-instance half of the theorem evaluated at the
match `"http://example.com)."` with coordinates `(0, 19)`, and the
trailing-character guarantee discharged at the same input (the surviving
last character is `'m'`). -/
theorem sanitize_url_punctuation_spec_witness :
    (sanitize_url_punctuation (("http://example.com)." : String).data) ⟨0, 19⟩
        = ((("http://example.com" : String).data), ⟨0, 17⟩))
    ∧ ('m' ≠ '.' ∧ 'm' ≠ ',' ∧ 'm' ≠ ':' ∧ 'm' ≠ ';' ∧ 'm' ≠ '(') :=
  ⟨sanitize_url_punctuation_spec.1 0 19,
   (sanitize_url_punctuation_spec.2.2 (("http://example.com)." : String).data) ⟨0, 19⟩).2.2.2
     'm' (by rfl)⟩

/-- Grid coordinate (alacritty `Point`): line index (negative when inside
scrollback above the visible region) and column. -/
structure GridPoint where
  line : Int
  col : Nat
deriving DecidableEq

/-- Inclusive grid range of a hyperlink match (alacritty
`Match = RangeInclusive<Point>`). -/
structure LinkRange where
  first : GridPoint
  last : GridPoint
deriving DecidableEq

/-- Modelled from the spec: the observable state of the external alacritty
emulation engine (`Term`), which is outside the source tree.  The session
core reads it only through the feed/resize/snapshot-query interface of
spec section 6, so the model keeps exactly the fields those queries
return: grid dimensions, scrollback display offset and history size, mode
flags, cursor with the character under it, the visible cells, and the
selection. -/
structure Engine where
  cols : Nat
  lines : Nat
  display_offset : Nat
  history : Nat
  mode : TermMode
  cursor : GridPoint
  cursor_char : Char
  cells : List (GridPoint × Char)
  selection : Option (GridPoint × GridPoint)

/-- Modelled from the spec: the engine's `resize(dimensions)`
(spec section 4.1: "Must be idempotent — calling with unchanged
dimensions is a no-op").  When the requested cell dimensions equal the
current ones the call returns the state unchanged; otherwise it re-flows
(`reflow` is an arbitrary parameter, since the spec does not fix the
re-flow) and leaves the grid at the requested dimensions. -/
def Engine.resize (reflow : Engine → TerminalBounds → Engine)
    (b : TerminalBounds) (e : Engine) : Engine :=
  if b.num_columns = e.cols ∧ b.num_lines = e.lines then e
  else { reflow e b with cols := b.num_columns, lines := b.num_lines }

/-- Scroll requests (alacritty `Scroll`). -/
inductive Scroll where
  | delta (lines : Int)
  | pageUp
  | pageDown
  | top
  | bottom
deriving DecidableEq

/-- Modelled from the spec: the engine's `scroll(request)` — the display
offset is moved and clamped to the available history; `bottom` resets it
to the live position, offset zero (spec: "force-scrolls the view to the
live position (any pending scrollback offset is reset to zero)"). -/
def Engine.scroll_display (s : Scroll) (e : Engine) : Engine :=
  match s with
  | Scroll.bottom => { e with display_offset := 0 }
  | Scroll.top => { e with display_offset := e.history }
  | Scroll.delta i =>
      { e with display_offset :=
          (min (e.history : Int) (max 0 ((e.display_offset : Int) + i))).toNat }
  | Scroll.pageUp => { e with display_offset := min e.history (e.display_offset + e.lines) }
  | Scroll.pageDown => { e with display_offset := e.display_offset - e.lines }

/-- Modelled from the spec: the engine's `clear(mode)` for
`ClearMode::All`. -/
def Engine.clear_screen (e : Engine) : Engine :=
  { e with cells := [] }

/-- Events arriving from the engine / process host on the event channel
(alacritty `Event`, restricted to the constructors the two consumers
match on). -/
inductive AlacEvent where
  | wakeup
  | bell
  | exit
  | title (s : String)
  | childExit (code : Int)
  | ptyWrite (s : String)
  | other
deriving DecidableEq

namespace ManifestApp

/-- Messages the manifest-app Terminal sends to the process host: PTY
writes (`pty_tx.notify`, logged as the written text) and window
resizes (`Msg::Resize`). -/
inductive PtyMsg where
  | write (bytes : String)
  | resize (b : TerminalBounds)

/-- `Event` of `manifest-app/terminal/src/lib.rs`: events emitted upward
to the view layer, including the hyperlink-open outcome `OpenUrl`. -/
inductive Event where
  | titleChanged
  | closeTerminal
  | bell
  | wakeup
  | openUrl (url : String)
deriving DecidableEq

/-- `TerminalContent` of `manifest-app/terminal/src/lib.rs`: the
renderable snapshot. -/
structure TerminalContent where
  cells : List (GridPoint × Char)
  mode : TermMode
  display_offset : Nat
  selection : Option (GridPoint × GridPoint)
  cursor : GridPoint
  cursor_char : Char
  terminal_bounds : TerminalBounds
  hovered_hyperlink : Option LinkRange

/-- The manifest-app `Terminal` entity.  The mutex-protected `term` handle
is embedded as the engine's observable state; the PTY notifier as the log
of messages sent to the process host; `find_url_at_point(&term, point)`
over the locked engine (together with its compiled `UrlSearch` regex,
which carries no observable state) is abstracted as the `url_at` lookup
so that the pointer-protocol logic of `mouse_down`/`mouse_up` is embedded
exactly. -/
structure Terminal where
  engine : Engine
  last_content : TerminalContent
  pty_log : List PtyMsg
  mouse_down_url : Option String
  hovered_hyperlink : Option LinkRange
  url_at : GridPoint → Option (String × LinkRange)

/-- `Terminal::input`: non-blocking write to the PTY
(`self.pty_tx.notify(...)`); nothing else changes. -/
def Terminal.input (s : String) (t : Terminal) : Terminal :=
  { t with pty_log := t.pty_log ++ [PtyMsg.write s] }

/-- `Terminal::set_size`: lock the engine and resize it, send the new
window size to the PTY, store the bounds on the last snapshot. -/
def Terminal.set_size (reflow : Engine → TerminalBounds → Engine)
    (b : TerminalBounds) (t : Terminal) : Terminal :=
  { t with
    engine := Engine.resize reflow b t.engine
    pty_log := t.pty_log ++ [PtyMsg.resize b]
    last_content := { t.last_content with terminal_bounds := b } }

/-- `Terminal::try_keystroke`: encode via `to_esc_str` (with
`option_as_meta = false`); otherwise forward `key_char` text; otherwise
forward a one-byte key string when neither control nor alt is held;
otherwise report the keystroke unhandled. -/
def Terminal.try_keystroke (macos : Bool) (ks : Keystroke) (t : Terminal) :
    Terminal × Bool :=
  match AppKeys.to_esc_str ks t.last_content.mode false macos with
  | some esc_str => (t.input esc_str, true)
  | Option.none =>
    match ks.key_char with
    | some key_char => (t.input key_char, true)
    | Option.none =>
      if ks.key.utf8ByteSize = 1
          ∧ ks.modifiers.control = false ∧ ks.modifiers.alt = false then
        (t.input ks.key, true)
      else (t, false)

/-- `Terminal::sync_content`: lock the engine, copy the renderable state
into a fresh snapshot; the stored bounds and the hover state carry over. -/
def Terminal.sync_content (t : Terminal) : Terminal :=
  { t with
    last_content :=
      { cells := t.engine.cells
        mode := t.engine.mode
        display_offset := t.engine.display_offset
        selection := t.engine.selection
        cursor := t.engine.cursor
        cursor_char := t.engine.cursor_char
        terminal_bounds := t.last_content.terminal_bounds
        hovered_hyperlink := t.hovered_hyperlink } }

/-- `Terminal::process_event`: dispatch one engine event (sync + Wakeup on
`Wakeup`, forward `Bell`/`Title`/`Exit`, loop PTY-write requests back to
the host, ignore the rest). -/
def Terminal.process_event (t : Terminal) (ev : AlacEvent) :
    Terminal × List Event :=
  match ev with
  | AlacEvent.wakeup => (t.sync_content, [Event.wakeup])
  | AlacEvent.bell => (t, [Event.bell])
  | AlacEvent.title _ => (t, [Event.titleChanged])
  | AlacEvent.exit => (t, [Event.closeTerminal])
  | AlacEvent.ptyWrite s => (t.input s, [])
  | _ => (t, [])

/-- The consumer loop spawned by `TerminalBuilder::build`: process every
event received on the channel, in order, until the channel is exhausted
(the host entity is assumed alive throughout; its teardown is the only
other way the loop ends). -/
def Terminal.process_events (t : Terminal) :
    List AlacEvent → Terminal × List Event
  | [] => (t, [])
  | e :: rest =>
    let r := t.process_event e
    let r2 := r.1.process_events rest
    (r2.1, r.2 ++ r2.2)

/-- Mouse buttons (gpui `MouseButton`, restricted to the variants the
terminal compares against). -/
inductive MouseButton where
  | left
  | right
  | middle
  | other
deriving DecidableEq

/-- `Terminal::pixel_to_grid_point`: reject negative positions, divide by
the cell metrics and floor, reject out-of-range cells, then shift by the
scrollback display offset. -/
def Terminal.pixel_to_grid_point (t : Terminal) (px py : ℚ) : Option GridPoint :=
  let b := t.last_content.terminal_bounds
  if px < 0 ∨ py < 0 then Option.none
  else
    let col : Int := ⌊px / b.cell_width⌋
    let line : Int := ⌊py / b.line_height⌋
    let num_cols : Int := (b.num_columns : Int)
    let num_lines : Int := (b.num_lines : Int)
    if col < 0 ∨ num_cols ≤ col ∨ line < 0 ∨ num_lines ≤ line then Option.none
    else
      let adjusted_line := line - (t.last_content.display_offset : Int)
      some ⟨adjusted_line, col.toNat⟩

/-- `Terminal::mouse_down`: only engaged for a left click with the
platform modifier; records the URL under the press point (and the hover
range) when one resolves; clears the press/hover state otherwise. -/
def Terminal.mouse_down (button : MouseButton) (px py : ℚ)
    (modifiers : KeyModifiers) (t : Terminal) : Terminal × Bool :=
  if button ≠ MouseButton.left ∨ modifiers.platform = false then
    ({ t with hovered_hyperlink := Option.none }, false)
  else
    match t.pixel_to_grid_point px py with
    | some point =>
      match t.url_at point with
      | some (url, match_range) =>
        ({ t with mouse_down_url := some url, hovered_hyperlink := some match_range }, true)
      | Option.none =>
        ({ t with mouse_down_url := Option.none, hovered_hyperlink := Option.none }, false)
    | Option.none =>
      ({ t with mouse_down_url := Option.none, hovered_hyperlink := Option.none }, false)

/-- `Terminal::mouse_up`: on a left release, take the recorded press URL;
fire exactly one `OpenUrl` event and return true only when the platform
modifier is still held and the URL under the release point is the same
string; otherwise emit nothing and return false. -/
def Terminal.mouse_up (button : MouseButton) (px py : ℚ)
    (modifiers : KeyModifiers) (t : Terminal) : Terminal × List Event × Bool :=
  if button ≠ MouseButton.left then (t, [], false)
  else
    let mouse_down_url := t.mouse_down_url
    let t1 := { t with mouse_down_url := Option.none }
    match mouse_down_url with
    | some down_url =>
      if modifiers.platform = true then
        match t1.pixel_to_grid_point px py with
        | some point =>
          match t1.url_at point with
          | some (up_url, _) =>
            if up_url = down_url then (t1, [Event.openUrl down_url], true)
            else (t1, [], false)
          | Option.none => (t1, [], false)
        | Option.none => (t1, [], false)
      else (t1, [], false)
    | Option.none => (t1, [], false)

end ManifestApp

namespace LegionTerm

/-- `InternalEvent` of `legion_terminal/src/event.rs`: queued session
requests applied at the next sync. -/
inductive InternalEvent where
  | resize (b : TerminalBounds)
  | clear
  | scroll (s : Scroll)

/-- `Event` of `legion_terminal/src/event.rs`: events emitted for the UI. -/
inductive Event where
  | titleChanged
  | closeTerminal
  | bell
  | wakeup
deriving DecidableEq

/-- Messages the legion_terminal Terminal sends to the process host:
PTY writes (byte sequences) and window resizes (`on_resize`). -/
inductive PtyMsg where
  | write (bytes : List Nat)
  | resize (b : TerminalBounds)

/-- `TerminalContent` of `legion_terminal/src/content.rs` (no selection or
hyperlink tracking in this implementation). -/
structure TerminalContent where
  cells : List (GridPoint × Char)
  mode : TermMode
  display_offset : Nat
  cursor : GridPoint
  cursor_char : Char
  terminal_bounds : TerminalBounds

/-- The legion_terminal `Terminal` entity: engine handle, queue of pending
internal events, last snapshot, and the PTY message log. -/
structure Terminal where
  engine : Engine
  events : List InternalEvent
  last_content : TerminalContent
  pty_log : List PtyMsg

/-- `Terminal::input`: queue a scroll-to-bottom and write the bytes to the
PTY (`write_to_pty`). -/
def Terminal.input (bytes : List Nat) (t : Terminal) : Terminal :=
  { t with
    events := t.events ++ [InternalEvent.scroll Scroll.bottom]
    pty_log := t.pty_log ++ [PtyMsg.write bytes] }

/-- `Terminal::resize`: queue a resize request (applied at the next
sync). -/
def Terminal.resize (b : TerminalBounds) (t : Terminal) : Terminal :=
  { t with events := t.events ++ [InternalEvent.resize b] }

/-- `Terminal::scroll_lines`: queue a delta scroll unless the delta is
zero. -/
def Terminal.scroll_lines (lines : Int) (t : Terminal) : Terminal :=
  if 0 < lines then { t with events := t.events ++ [InternalEvent.scroll (Scroll.delta lines)] }
  else if lines < 0 then { t with events := t.events ++ [InternalEvent.scroll (Scroll.delta lines)] }
  else t

/-- `Terminal::scroll_page_up`. -/
def Terminal.scroll_page_up (t : Terminal) : Terminal :=
  { t with events := t.events ++ [InternalEvent.scroll Scroll.pageUp] }

/-- `Terminal::scroll_page_down`. -/
def Terminal.scroll_page_down (t : Terminal) : Terminal :=
  { t with events := t.events ++ [InternalEvent.scroll Scroll.pageDown] }

/-- `Terminal::scroll_to_top`. -/
def Terminal.scroll_to_top (t : Terminal) : Terminal :=
  { t with events := t.events ++ [InternalEvent.scroll Scroll.top] }

/-- `Terminal::scroll_to_bottom`. -/
def Terminal.scroll_to_bottom (t : Terminal) : Terminal :=
  { t with events := t.events ++ [InternalEvent.scroll Scroll.bottom] }

/-- One step of the internal-event drain inside `Terminal::sync`: a
resize locks and resizes the engine, notifies the PTY and stores the new
bounds on the snapshot; a clear clears the engine screen; a scroll moves
the engine display offset. -/
def Terminal.apply_internal (reflow : Engine → TerminalBounds → Engine)
    (t : Terminal) (ev : InternalEvent) : Terminal :=
  match ev with
  | InternalEvent.resize b =>
    { t with
      engine := Engine.resize reflow b t.engine
      pty_log := t.pty_log ++ [PtyMsg.resize b]
      last_content := { t.last_content with terminal_bounds := b } }
  | InternalEvent.clear => { t with engine := t.engine.clear_screen }
  | InternalEvent.scroll s => { t with engine := Engine.scroll_display s t.engine }

/-- `Terminal::make_content`: build a fresh snapshot from the engine
state, carrying the stored bounds over. -/
def make_content (e : Engine) (last : TerminalContent) : TerminalContent :=
  { cells := e.cells
    mode := e.mode
    display_offset := e.display_offset
    cursor := e.cursor
    cursor_char := e.cursor_char
    terminal_bounds := last.terminal_bounds }

/-- `Terminal::sync`: drain the queued internal events in FIFO order under
the engine lock, then rebuild the content snapshot. -/
def Terminal.sync (reflow : Engine → TerminalBounds → Engine)
    (t : Terminal) : Terminal :=
  let t1 := t.events.foldl (Terminal.apply_internal reflow) { t with events := [] }
  { t1 with last_content := make_content t1.engine t1.last_content }

/-- `Terminal::process_alac_event`: the events forwarded for one incoming
engine event (`Wakeup` forwards nothing here; `Bell`/`Title` are
forwarded; `Exit` and `ChildExit` are forwarded as `CloseTerminal`;
anything else is ignored). -/
def Terminal.process_alac_event : AlacEvent → List Event
  | AlacEvent.bell => [Event.bell]
  | AlacEvent.exit => [Event.closeTerminal]
  | AlacEvent.title _ => [Event.titleChanged]
  | AlacEvent.childExit _ => [Event.closeTerminal]
  | _ => []

/-- `Terminal::process_events`: the consumer task loop — for each event
received on the channel, in order, dispatch it via `process_alac_event`,
then sync and emit `Wakeup`; the loop ends when the channel is exhausted
(the host entity is assumed alive throughout; its teardown is the only
other way the loop ends). -/
def Terminal.process_events (reflow : Engine → TerminalBounds → Engine)
    (t : Terminal) : List AlacEvent → Terminal × List Event
  | [] => (t, [])
  | e :: rest =>
    let emitted := Terminal.process_alac_event e
    let t1 := t.sync reflow
    let r := t1.process_events reflow rest
    (r.1, emitted ++ [Event.wakeup] ++ r.2)

end LegionTerm

/-- Resizing the engine twice to the same dimensions is the same as
resizing once: after the first call the grid is at the requested
dimensions, so the second call hits the unchanged-dimensions no-op. -/
theorem Engine.resize_resize (reflow : Engine → TerminalBounds → Engine)
    (b : TerminalBounds) (e : Engine) :
    Engine.resize reflow b (Engine.resize reflow b e) = Engine.resize reflow b e := by
  unfold Engine.resize
  by_cases h : b.num_columns = e.cols ∧ b.num_lines = e.lines
  · simp [h]
  · simp [h]

/-- C8: resize idempotence.  In the legion_terminal session, queueing the
same resize twice and syncing produces the same snapshot (in particular
the same dimensions and the same recorded cursor position) as queueing it
once and syncing; in the manifest-app session, calling `set_size` twice
with identical bounds leaves the same snapshot as calling it once.  Both
hold for every engine re-flow behaviour `reflow`. -/
theorem resize_idempotent :
    (∀ (reflow : Engine → TerminalBounds → Engine) (b : TerminalBounds)
        (t : LegionTerm.Terminal),
      (((t.resize b).resize b).sync reflow).last_content
        = ((t.resize b).sync reflow).last_content)
    ∧ (∀ (reflow : Engine → TerminalBounds → Engine) (b : TerminalBounds)
        (t : ManifestApp.Terminal),
      ((t.set_size reflow b).set_size reflow b).last_content
        = (t.set_size reflow b).last_content) := by
  constructor
  · intro reflow b t
    simp [LegionTerm.Terminal.resize, LegionTerm.Terminal.sync, List.foldl_append,
          LegionTerm.Terminal.apply_internal, LegionTerm.make_content, Engine.resize_resize]
  · intro reflow b t
    simp [ManifestApp.Terminal.set_size, Engine.resize_resize]

/-- C4 amended: in the legion_terminal session, `input(bytes)` writes the
bytes to the process host and queues a scroll-to-bottom, so the snapshot
produced by the next sync has display offset zero; in the manifest-app
session, `input` only writes to the process host — it queues no scroll,
and the next snapshot keeps whatever display offset the engine has. -/
theorem input_writes_and_scrolls :
    (∀ (reflow : Engine → TerminalBounds → Engine) (t : LegionTerm.Terminal)
        (bytes : List Nat),
      (t.input bytes).pty_log = t.pty_log ++ [LegionTerm.PtyMsg.write bytes]
      ∧ ((t.input bytes).sync reflow).last_content.display_offset = 0)
    ∧ (∀ (t : ManifestApp.Terminal) (s : String),
      (t.input s).pty_log = t.pty_log ++ [ManifestApp.PtyMsg.write s]
      ∧ ((t.input s).sync_content).last_content.display_offset
          = t.engine.display_offset) := by
  constructor
  · intro reflow t bytes
    refine ⟨rfl, ?_⟩
    simp [LegionTerm.Terminal.input, LegionTerm.Terminal.sync, List.foldl_append,
          LegionTerm.Terminal.apply_internal, LegionTerm.make_content,
          Engine.scroll_display]
  · intro t s
    exact ⟨rfl, rfl⟩

/-- Cell bounds used by the concrete instances: 1×1 cells over a 10×10
pixel region, so the grid is 10 columns by 10 lines. -/
def bounds0 : TerminalBounds :=
  { cell_width := 1, line_height := 1
    bounds := { origin := (0, 0), size := { width := 10, height := 10 } } }

/-- A concrete engine state at the live position. -/
def engine0 : Engine :=
  { cols := 10, lines := 10, display_offset := 0, history := 100
    mode := ⟨false, false⟩, cursor := ⟨0, 0⟩, cursor_char := ' '
    cells := [], selection := Option.none }

/-- A concrete manifest-app snapshot. -/
def app_content0 : ManifestApp.TerminalContent :=
  { cells := [], mode := ⟨false, false⟩, display_offset := 0
    selection := Option.none, cursor := ⟨0, 0⟩, cursor_char := ' '
    terminal_bounds := bounds0, hovered_hyperlink := Option.none }

/-- A concrete manifest-app terminal with no URL anywhere on the grid. -/
def app_term0 : ManifestApp.Terminal :=
  { engine := engine0, last_content := app_content0, pty_log := []
    mouse_down_url := Option.none, hovered_hyperlink := Option.none
    url_at := fun _ => Option.none }

/-- A manifest-app terminal whose engine is scrolled 3 lines into
history. -/
def app_term_scrolled : ManifestApp.Terminal :=
  { app_term0 with engine := { engine0 with display_offset := 3 } }

/-- C4 counterexample: in the manifest-app implementation, `input` does
not force-scroll — on a terminal whose engine is scrolled 3 lines into
history, writing input and then syncing leaves the snapshot's display
offset at 3, not 0. -/
theorem input_no_scroll_reset_app_cex :
    ((ManifestApp.Terminal.input "x" app_term_scrolled).sync_content).last_content.display_offset = 3
    ∧ (3 : ℕ) ≠ 0 :=
  ⟨rfl, by decide⟩

/-- A concrete legion_terminal snapshot. -/
def legion_content0 : LegionTerm.TerminalContent :=
  { cells := [], mode := ⟨false, false⟩, display_offset := 0
    cursor := ⟨0, 0⟩, cursor_char := ' ', terminal_bounds := bounds0 }

/-- A concrete legion_terminal terminal with an empty event queue. -/
def legion_term0 : LegionTerm.Terminal :=
  { engine := engine0, events := [], last_content := legion_content0, pty_log := [] }

/-- The identity re-flow, used to instantiate the engine's re-flow
parameter in concrete runs. -/
def reflow_id : Engine → TerminalBounds → Engine := fun e _ => e

/-- C3 counterexample: after either consumer observes `Exit` and forwards
it as `CloseTerminal`, it does not stop — a `Bell` received after the
`Exit` is still dispatched.  The legion consumer emits
`[CloseTerminal, Wakeup, Bell, Wakeup]`, not `[CloseTerminal, Wakeup]`;
the manifest-app consumer emits `[CloseTerminal, Bell]`, not
`[CloseTerminal]`. -/
theorem consumer_continues_after_exit_cex :
    ((legion_term0.process_events reflow_id [AlacEvent.exit, AlacEvent.bell]).2
      = [LegionTerm.Event.closeTerminal, LegionTerm.Event.wakeup,
         LegionTerm.Event.bell, LegionTerm.Event.wakeup]
    ∧ (legion_term0.process_events reflow_id [AlacEvent.exit, AlacEvent.bell]).2
      ≠ [LegionTerm.Event.closeTerminal, LegionTerm.Event.wakeup])
    ∧ ((app_term0.process_events [AlacEvent.exit, AlacEvent.bell]).2
      = [ManifestApp.Event.closeTerminal, ManifestApp.Event.bell]
    ∧ (app_term0.process_events [AlacEvent.exit, AlacEvent.bell]).2
      ≠ [ManifestApp.Event.closeTerminal]) :=
  ⟨⟨rfl, by decide⟩, ⟨rfl, by decide⟩⟩

/-- C3 amended: both consumers forward an engine `Exit` event as
`CloseTerminal` but keep consuming — processing a concatenation of event
batches dispatches the first batch and then continues with the rest from
the resulting state, whatever the first batch contained; consumption
stops only when the channel is exhausted (or the host entity is torn
down).  The legion consumer also forwards `ChildExit` as
`CloseTerminal`, while the manifest-app consumer ignores `ChildExit`
(its match has no arm for it). -/
theorem consumer_forwards_all_events :
    (∀ (reflow : Engine → TerminalBounds → Engine) (t : LegionTerm.Terminal)
        (evs1 evs2 : List AlacEvent),
      (t.process_events reflow (evs1 ++ evs2)).2
        = (t.process_events reflow evs1).2
          ++ ((t.process_events reflow evs1).1.process_events reflow evs2).2)
    ∧ LegionTerm.Terminal.process_alac_event AlacEvent.exit = [LegionTerm.Event.closeTerminal]
    ∧ (∀ code : Int, LegionTerm.Terminal.process_alac_event (AlacEvent.childExit code)
        = [LegionTerm.Event.closeTerminal])
    ∧ (∀ (t : ManifestApp.Terminal) (evs1 evs2 : List AlacEvent),
      (t.process_events (evs1 ++ evs2)).2
        = (t.process_events evs1).2
          ++ ((t.process_events evs1).1.process_events evs2).2)
    ∧ (∀ t : ManifestApp.Terminal,
        t.process_event AlacEvent.exit = (t, [ManifestApp.Event.closeTerminal]))
    ∧ (∀ (t : ManifestApp.Terminal) (code : Int),
        t.process_event (AlacEvent.childExit code) = (t, [])) := by
  refine ⟨?_, rfl, fun _ => rfl, ?_, fun _ => rfl, fun _ _ => rfl⟩
  · intro reflow t evs1 evs2
    induction evs1 generalizing t with
    | nil => simp [LegionTerm.Terminal.process_events]
    | cons e rest ih =>
      simp [LegionTerm.Terminal.process_events, ih]
  · intro t evs1 evs2
    induction evs1 generalizing t with
    | nil => simp [ManifestApp.Terminal.process_events]
    | cons e rest ih =>
      simp [ManifestApp.Terminal.process_events, ih]

/-- C10 amended: in the manifest-app implementation, when the encoder
returns nothing and the keystroke carries no `key_char` text,
`try_keystroke` writes the key string to the PTY and returns true exactly
when the key string is one byte long and neither control nor alt is held
(the platform modifier does not block this fallback); otherwise it writes
nothing and returns false.  The source's test is `keystroke.key.len() == 1`,
a byte length — a single multi-byte character fails it. -/
theorem try_keystroke_fallback :
    ∀ (mac : Bool) (t : ManifestApp.Terminal) (ks : Keystroke),
      AppKeys.to_esc_str ks t.last_content.mode false mac = Option.none →
      ks.key_char = Option.none →
      ((ks.key.utf8ByteSize = 1 ∧ ks.modifiers.control = false ∧ ks.modifiers.alt = false) →
        ManifestApp.Terminal.try_keystroke mac ks t
          = ({ t with pty_log := t.pty_log ++ [ManifestApp.PtyMsg.write ks.key] }, true))
      ∧ ((¬ (ks.key.utf8ByteSize = 1 ∧ ks.modifiers.control = false ∧ ks.modifiers.alt = false)) →
        ManifestApp.Terminal.try_keystroke mac ks t = (t, false)) := by
  intro mac t ks h1 h2
  constructor
  · intro h3
    simp [ManifestApp.Terminal.try_keystroke, h1, h2, h3, ManifestApp.Terminal.input]
  · intro h3
    simp [ManifestApp.Terminal.try_keystroke, h1, h2, h3]

/-- C10 witness: the fallback applied at Cmd+A (platform modifier held,
encoder yields nothing, no `key_char`): the key string `"a"` is written
and the call returns true. -/
theorem try_keystroke_fallback_witness :
    AppKeys.to_esc_str ⟨"a", platformOnly, Option.none⟩ app_term0.last_content.mode false false
      = Option.none
    ∧ ManifestApp.Terminal.try_keystroke false ⟨"a", platformOnly, Option.none⟩ app_term0
      = ({ app_term0 with
            pty_log := app_term0.pty_log
              ++ [ManifestApp.PtyMsg.write (⟨"a", platformOnly, Option.none⟩ : Keystroke).key] },
         true) :=
  ⟨rfl,
   (try_keystroke_fallback false app_term0 ⟨"a", platformOnly, Option.none⟩ rfl rfl).1
     (by refine ⟨by decide, rfl, rfl⟩)⟩

/-- C10 counterexample: the keystroke `"é"` is a single character with
neither control nor alt held, the encoder returns nothing and there is no
`key_char`, yet `try_keystroke` returns false (and writes nothing):
`"é".len()` is 2 bytes, so the one-byte fallback test fails. -/
theorem try_keystroke_single_char_cex :
    ("é" : String).length = 1
    ∧ (⟨"é", noMods, Option.none⟩ : Keystroke).modifiers.control = false
    ∧ (⟨"é", noMods, Option.none⟩ : Keystroke).modifiers.alt = false
    ∧ AppKeys.to_esc_str ⟨"é", noMods, Option.none⟩ app_term0.last_content.mode false false
        = Option.none
    ∧ ManifestApp.Terminal.try_keystroke false ⟨"é", noMods, Option.none⟩ app_term0
        = (app_term0, false) :=
  ⟨by decide, rfl, rfl, rfl, rfl⟩

/-- C1: hyperlink click protocol.  If `mouse_down` is called with the left
button, the platform modifier held, and a position resolving (through
`pixel_to_grid_point` and the URL lookup) to a URL, it returns true and
records the URL; a following `mouse_up` with the left button, the
platform modifier still held, and a position resolving to the same URL
string emits exactly one `OpenUrl` event carrying that URL and returns
true (`mouse_down` itself emits nothing — it has no event channel).
Conversely `mouse_up` emits nothing and returns false when no press
recorded a URL, when the platform modifier is no longer held, or when the
URL under the release point differs from the recorded one. -/
theorem hyperlink_click_protocol :
    (∀ (t : ManifestApp.Terminal) (pxd pyd pxu pyu : ℚ)
        (mods_down mods_up : KeyModifiers) (pd pu : GridPoint)
        (url : String) (range_d range_u : LinkRange),
      mods_down.platform = true → mods_up.platform = true →
      t.pixel_to_grid_point pxd pyd = some pd →
      t.url_at pd = some (url, range_d) →
      t.pixel_to_grid_point pxu pyu = some pu →
      t.url_at pu = some (url, range_u) →
      (t.mouse_down ManifestApp.MouseButton.left pxd pyd mods_down).2 = true
      ∧ ((t.mouse_down ManifestApp.MouseButton.left pxd pyd mods_down).1.mouse_up
            ManifestApp.MouseButton.left pxu pyu mods_up).2.1
          = [ManifestApp.Event.openUrl url]
      ∧ ((t.mouse_down ManifestApp.MouseButton.left pxd pyd mods_down).1.mouse_up
            ManifestApp.MouseButton.left pxu pyu mods_up).2.2 = true)
    ∧ (∀ (t : ManifestApp.Terminal) (px py : ℚ) (mods : KeyModifiers),
      t.mouse_down_url = Option.none →
      t.mouse_up ManifestApp.MouseButton.left px py mods
        = ({ t with mouse_down_url := Option.none }, [], false))
    ∧ (∀ (t : ManifestApp.Terminal) (px py : ℚ) (mods : KeyModifiers),
      mods.platform = false →
      t.mouse_up ManifestApp.MouseButton.left px py mods
        = ({ t with mouse_down_url := Option.none }, [], false))
    ∧ (∀ (t : ManifestApp.Terminal) (px py : ℚ) (mods : KeyModifiers)
        (d u : String) (p : GridPoint) (r : LinkRange),
      t.mouse_down_url = some d →
      t.pixel_to_grid_point px py = some p →
      t.url_at p = some (u, r) →
      u ≠ d →
      t.mouse_up ManifestApp.MouseButton.left px py mods
        = ({ t with mouse_down_url := Option.none }, [], false)) := by
  refine ⟨?_, ?_, ?_, ?_⟩
  · intro t pxd pyd pxu pyu md mu pd pu url rd ru hmd hmu hpd hud hpu huu
    have hdown : t.mouse_down ManifestApp.MouseButton.left pxd pyd md
        = ({ t with mouse_down_url := some url, hovered_hyperlink := some rd }, true) := by
      simp [ManifestApp.Terminal.mouse_down, hmd, hpd, hud]
    have key : ∀ (s : ManifestApp.Terminal),
        s.mouse_down_url = some url →
        ManifestApp.Terminal.pixel_to_grid_point { s with mouse_down_url := Option.none } pxu pyu
          = some pu →
        s.url_at pu = some (url, ru) →
        s.mouse_up ManifestApp.MouseButton.left pxu pyu mu
          = ({ s with mouse_down_url := Option.none },
             [ManifestApp.Event.openUrl url], true) := by
      intro s hs1 hs2 hs3
      simp [ManifestApp.Terminal.mouse_up, hs1, hmu, hs2, hs3]
    have hup := key { t with mouse_down_url := some url, hovered_hyperlink := some rd }
      rfl hpu huu
    refine ⟨by rw [hdown], ?_, ?_⟩
    · rw [hdown]
      exact congrArg (fun r => r.2.1) hup
    · rw [hdown]
      exact congrArg (fun r => r.2.2) hup
  · intro t px py mods h
    simp [ManifestApp.Terminal.mouse_up, h]
  · intro t px py mods h
    cases hmd : t.mouse_down_url with
    | none => simp [ManifestApp.Terminal.mouse_up, hmd]
    | some d => simp [ManifestApp.Terminal.mouse_up, hmd, h]
  · intro t px py mods d u p r hd hp hu hne
    have hp2 : ManifestApp.Terminal.pixel_to_grid_point
        { t with mouse_down_url := Option.none } px py = some p := hp
    simp [ManifestApp.Terminal.mouse_up, hd, hp2, hu, hne]

/-- Grid range of the concrete hyperlink used by the witnesses. -/
def link_range0 : LinkRange := ⟨⟨0, 0⟩, ⟨0, 5⟩⟩

/-- A manifest-app terminal whose grid resolves the origin cell to a URL. -/
def app_term_url : ManifestApp.Terminal :=
  { app_term0 with
    url_at := fun p =>
      if p = ⟨0, 0⟩ then some ("http://e.com", link_range0) else Option.none }

/-- The witness bounds span 10 lines. -/
theorem bounds0_num_lines : bounds0.num_lines = 10 := by
  have h : ⌊((10 : ℚ)) / 1⌋ = (10 : ℤ) := by norm_num
  show min (⌊((10 : ℚ)) / 1⌋).toNat USIZE_MAX = 10
  rw [h]
  decide

/-- The witness bounds span 10 columns. -/
theorem bounds0_num_columns : bounds0.num_columns = 10 := by
  have h : ⌊((10 : ℚ)) / 1⌋ = (10 : ℤ) := by norm_num
  show min (⌊((10 : ℚ)) / 1⌋).toNat USIZE_MAX = 10
  rw [h]
  decide

/-- C6 witness: the amended theorem applied at the concrete 1-by-1-cell
bounds over a 10-by-10-pixel region (nonzero cell metrics): both
dimension counts equal the clamped floors there. -/
theorem num_lines_num_columns_floor_clamped_witness :
    (bounds0.num_lines : ℤ)
      = max (min ⌊bounds0.bounds.size.height / bounds0.line_height⌋ (USIZE_MAX : ℤ)) 0
    ∧ (bounds0.num_columns : ℤ)
      = max (min ⌊bounds0.bounds.size.width / bounds0.cell_width⌋ (USIZE_MAX : ℤ)) 0 :=
  ⟨(num_lines_num_columns_floor_clamped bounds0).1 (by norm_num [bounds0]),
   (num_lines_num_columns_floor_clamped bounds0).2.1 (by norm_num [bounds0])⟩

/-- Pixel position `(0, 0)` on the witness terminal resolves to the origin
grid cell. -/
theorem app_term_url_pixel_origin :
    app_term_url.pixel_to_grid_point 0 0 = some ⟨0, 0⟩ := by
  simp [ManifestApp.Terminal.pixel_to_grid_point, app_term_url, app_term0,
    app_content0, bounds0_num_lines, bounds0_num_columns]

/-- C1 witness: the click-protocol theorem applied at a concrete terminal
with a URL at the origin cell — press and release at pixel `(0, 0)` with
the platform modifier held emit exactly one `OpenUrl "http://e.com"` and
return true. -/
theorem hyperlink_click_protocol_witness :
    (app_term_url.mouse_down ManifestApp.MouseButton.left 0 0 platformOnly).2 = true
    ∧ ((app_term_url.mouse_down ManifestApp.MouseButton.left 0 0 platformOnly).1.mouse_up
          ManifestApp.MouseButton.left 0 0 platformOnly).2.1
        = [ManifestApp.Event.openUrl "http://e.com"]
    ∧ ((app_term_url.mouse_down ManifestApp.MouseButton.left 0 0 platformOnly).1.mouse_up
          ManifestApp.MouseButton.left 0 0 platformOnly).2.2 = true :=
  hyperlink_click_protocol.1 app_term_url 0 0 0 0 platformOnly platformOnly
    ⟨0, 0⟩ ⟨0, 0⟩ "http://e.com" link_range0 link_range0
    rfl rfl app_term_url_pixel_origin rfl app_term_url_pixel_origin rfl
